import Mathlib

/-!
Shallow embedding of `src/cryptsetup/cryptsetup-pkcs11.c`: the PKCS#11 key-unwrap
orchestration (`decrypt_pkcs11_key` together with its per-token attempt callback
`pkcs11_callback` and the scoped cleanup `pkcs11_callback_data_release`) and the
LUKS2 metadata scan (`find_pkcs11_auto_data`).

Modelling conventions:
- Byte buffers are `List Nat`; a buffer's size argument is its list length.
- C functions returning `int` with the negative-errno convention are modelled as
  `Except Int _`, where `.error e` stands for a negative return value `e`.
- External collaborators excluded by the design (token driver, JSON accessors,
  base64 decoding, URI validation, keyslot extraction) are parameters of the
  environment records, so theorems quantify over their behaviour.
- Heap buffers relevant to ownership claims carry an identity tag (`Buf`); both
  entry points additionally return the list of buffer identities they freed over
  the whole call (scoped cleanup included), and the caller's output cells are
  threaded explicitly so that "outputs untouched on error" is expressible.
- `assert()` aborts the process, modelled as a distinct `assertFail` outcome on
  which no scoped cleanup runs.
-/

namespace CryptsetupPkcs11

/-! ### Errno constants (Linux values, as used by the source) -/

def ENOENT : Int := 2

def ENXIO : Int := 6

def EAGAIN : Int := 11

def EINVAL : Int := 22

def ENOTUNIQ : Int := 76

def EMEDIUMTYPE : Int := 124

def UINT64_MAX : Nat := 2 ^ 64 - 1

def SIZE_MAX : Nat := 2 ^ 64 - 1

/-- Identity tag of a heap buffer handled by `decrypt_pkcs11_key`:
the caller-owned literal `key_data` buffer, the buffer allocated by
`read_full_file_full`, or the plaintext buffer allocated by the token's
decrypt operation. -/
inductive Buf
  | callerKey
  | fileKey
  | plaintext
  deriving DecidableEq, Repr

/-! ### Key unwrap: `pkcs11_callback_data`, `pkcs11_callback`, `decrypt_pkcs11_key` -/

/-- A token as seen through the delegated token-driver capability: results of
`pkcs11_token_login` (as a function of friendly name, category hint, credential
prompt id and deadline), `pkcs11_token_acquire_rng`, `pkcs11_token_find_private_key`
and `pkcs11_token_decrypt_data` (as a function of object handle and ciphertext). -/
structure Token where
  login : String → String → String → Nat → Except Int Unit
  acquire_rng : Except Int Unit
  find_private_key : Except Int Nat
  decrypt_data : Nat → List Nat → Except Int (List Nat)

/-- `struct pkcs11_callback_data`. `encrypted_key` carries the buffer identity
alongside the bytes; `encrypted_key_size` is the bytes' length. -/
structure pkcs11_callback_data where
  friendly_name : String
  until_usec : Nat
  encrypted_key : Option (Buf × List Nat)
  decrypted_key : Option (List Nat)
  decrypted_key_size : Nat
  free_encrypted_key : Bool
  deriving DecidableEq

/-- `pkcs11_callback_data_release`: `free(data->decrypted_key)` (no-op on NULL),
then `free(data->encrypted_key)` only when `free_encrypted_key` is set.
Returns the identities of the buffers freed. -/
def pkcs11_callback_data_release (data : pkcs11_callback_data) : List Buf :=
  (match data.decrypted_key with
   | some _ => [Buf.plaintext]
   | none => []) ++
  (if data.free_encrypted_key then
     match data.encrypted_key with
     | some (b, _) => [b]
     | none => []
   else [])

/-- `pkcs11_callback`: per-token attempt. Login with the fixed category hint
"drive-harddisk" and credential id "pkcs11-pin"; on success opportunistically
acquire entropy (result discarded by `(void)`); then find the private key and
decrypt the wrapped key. Each failing step returns its negative error with the
data unchanged. Returns `(r, data)` mirroring the C `int` return plus the
mutated `userdata`. -/
def pkcs11_callback (tok : Token) (data : pkcs11_callback_data) :
    Int × pkcs11_callback_data :=
  match tok.login data.friendly_name "drive-harddisk" "pkcs11-pin" data.until_usec with
  | .error r => (r, data)
  | .ok _ =>
      let _ := tok.acquire_rng
      match tok.find_private_key with
      | .error r => (r, data)
      | .ok object =>
          match tok.decrypt_data object ((data.encrypted_key.map (fun p => p.2)).getD []) with
          | .error r => (r, data)
          | .ok pt =>
              (0, { data with decrypted_key := some pt, decrypted_key_size := pt.length })

/-- Modelled from the spec: `pkcs11_find_token` (pkcs11-util.c, not among the
supplied sources) invokes the per-token attempt for present tokens matching the
URI, must "stop and return success at the first attempt that fully succeeds",
and reports EAGAIN-class absence when no matching token is present. The
continue-vs-abort policy after a failed attempt is an explicit open question of
the spec; we model the search as trying the first matching token and returning
that attempt's result, which no claim depends on. -/
def pkcs11_find_token (tokens : List Token) (data : pkcs11_callback_data) :
    Int × pkcs11_callback_data :=
  match tokens with
  | [] => (-EAGAIN, data)
  | tok :: _ => pkcs11_callback tok data

/-- Modelled from the spec: `read_full_file_full` (fileio.c, not among the
supplied sources) reads up to `size` bytes of the file starting at `offset`,
where offset `UINT64_MAX` means "from the start" and size `SIZE_MAX` means
"read to EOF"; an I/O failure of the underlying source is propagated unchanged.
The byte source is an `Except`: either the file's contents or its I/O error. -/
def read_full_file_full (file : Except Int (List Nat)) (offset size : Nat) :
    Except Int (List Nat) :=
  match file with
  | .error e => .error e
  | .ok bytes =>
      let start := if offset = UINT64_MAX then 0 else offset
      let window := bytes.drop start
      .ok (if size = SIZE_MAX then window else window.take size)

/-- Environment of one `decrypt_pkcs11_key` call: the outcome of opening and
reading the key file, and the present tokens matching the URI. -/
structure DecEnv where
  fileRead : Except Int (List Nat)
  tokens : List Token

/-- Arguments of `decrypt_pkcs11_key`. Pointer arguments that may be NULL are
`Option`; `key_data` carries its bytes (its size being the length). -/
structure DecArgs where
  friendly_name : Option String
  pkcs11_uri : Option String
  key_file : Option String
  key_file_size : Nat
  key_file_offset : Nat
  key_data : Option (List Nat)
  until_usec : Nat
  deriving DecidableEq

/-- The caller's two output cells `*ret_decrypted_key` / `*ret_decrypted_key_size`. -/
structure DecOut where
  decrypted_key : Option (List Nat)
  decrypted_key_size : Nat
  deriving DecidableEq

/-- Outcome of `decrypt_pkcs11_key`: a tripped `assert` (process abort), a
negative error return, or success. -/
inductive DecResult
  | assertFail
  | err (e : Int)
  | ok
  deriving DecidableEq

/-- The `assert()` preconditions of `decrypt_pkcs11_key` that can fail:
`assert(friendly_name)`, `assert(pkcs11_uri)`, `assert(key_file || key_data)`. -/
def decAsserts (args : DecArgs) : Bool :=
  args.friendly_name.isNone || args.pkcs11_uri.isNone ||
    (args.key_file.isNone && args.key_data.isNone)

/-- Wrapped-key acquisition step of `decrypt_pkcs11_key`: either borrow the
caller's literal buffer (`free_encrypted_key = false`), or read it from the key
file with the 0-means-unspecified sentinels mapped to `read_full_file_full`'s
conventions (`free_encrypted_key = true`). Returns (identity, bytes, owned). -/
def decrypt_load (env : DecEnv) (args : DecArgs) : Except Int (Buf × List Nat × Bool) :=
  match args.key_data with
  | some kd => .ok (Buf.callerKey, kd, false)
  | none =>
      match read_full_file_full env.fileRead
          (if args.key_file_offset = 0 then UINT64_MAX else args.key_file_offset)
          (if args.key_file_size = 0 then SIZE_MAX else args.key_file_size) with
      | .error e => .error e
      | .ok bytes => .ok (Buf.fileKey, bytes, true)

/-- Tail of `decrypt_pkcs11_key` once the context carries the wrapped key: run
the token search; a negative result is returned with the scoped release of the
context; on success the context's `decrypted_key` is nulled (`TAKE_PTR`) before
the scoped release runs and the plaintext and its size are written to the
caller's cells. -/
def decrypt_finish (tokens : List Token) (data1 : pkcs11_callback_data) (out : DecOut) :
    DecResult × DecOut × List Buf :=
  let res := pkcs11_find_token tokens data1
  if res.1 < 0 then
    (.err res.1, out, pkcs11_callback_data_release res.2)
  else
    let data3 := { res.2 with decrypted_key := none }
    (.ok,
     { decrypted_key := res.2.decrypted_key,
       decrypted_key_size := res.2.decrypted_key_size },
     pkcs11_callback_data_release data3)

/-- `decrypt_pkcs11_key`: check the asserts, acquire the wrapped key, run the
token search, and on success transfer the plaintext to the caller's cells.
Returns (outcome, final output cells, buffers freed across the whole call). -/
def decrypt_pkcs11_key (env : DecEnv) (args : DecArgs) (out : DecOut) :
    DecResult × DecOut × List Buf :=
  if decAsserts args then
    (.assertFail, out, [])
  else
    let data0 : pkcs11_callback_data :=
      { friendly_name := args.friendly_name.getD "", until_usec := args.until_usec,
        encrypted_key := none, decrypted_key := none,
        decrypted_key_size := 0, free_encrypted_key := false }
    match decrypt_load env args with
    | .error e => (.err e, out, pkcs11_callback_data_release data0)
    | .ok (b, bytes, owned) =>
        decrypt_finish env.tokens
          { data0 with
            encrypted_key := some (b, bytes)
            free_encrypted_key := owned } out

/-! ### Locator resolution: `find_pkcs11_auto_data` -/

/-- A JSON value as far as this core inspects it: a string or anything else. -/
inductive JVal
  | str (s : String)
  | nonString
  deriving DecidableEq

/-- A LUKS2 token record of kind "systemd-pkcs11" as returned by
`cryptsetup_get_token_as_json`, together with the result the delegated
`cryptsetup_get_keyslot_from_token` accessor yields on it (negative = error). -/
structure TokenJson where
  fields : List (String × JVal)
  keyslot : Int
  deriving DecidableEq

/-- `json_variant_by_key`: first field of the given name, if any. -/
def json_variant_by_key (v : TokenJson) (k : String) : Option JVal :=
  (v.fields.find? (fun p => p.1 == k)).map (fun p => p.2)

/-- Environment of one `find_pkcs11_auto_data` call: the slot count
(`sym_crypt_token_max`), the per-slot result of `cryptsetup_get_token_as_json`
(`.error e` standing for a negative return `e`), the delegated
`pkcs11_uri_valid` predicate and the delegated `unbase64mem` decoder. -/
structure FindEnv where
  maxTokens : Nat
  slot : Nat → Except Int TokenJson
  uriValid : String → Bool
  unbase64 : String → Except Int (List Nat)

/-- Failure modes of the scan, each remembering its errno. -/
inductive FindErr
  | readFail (e : Int)
  | notUnique
  | missingUri
  | invalidUri
  | missingKey
  | badBase64 (e : Int)
  | badKeyslot (e : Int)
  | nothingFound
  deriving DecidableEq

/-- The errno a `FindErr` is returned as. -/
def FindErr.errno : FindErr → Int
  | .readFail e => e
  | .notUnique => -ENOTUNIQ
  | .missingUri => -EINVAL
  | .invalidUri => -EINVAL
  | .missingKey => -EINVAL
  | .badBase64 e => e
  | .badKeyslot e => e
  | .nothingFound => - ENXIO

/-- The scan's captured values (`uri`, `key`/`key_size`, `keyslot` locals). -/
structure FindState where
  uri : Option String
  key : Option (List Nat)
  keyslot : Int
  deriving DecidableEq

def initFindState : FindState := { uri := none, key := none, keyslot := -1 }

/-- The caller's four output cells of `find_pkcs11_auto_data`. -/
structure FindOut where
  uri : Option String
  encrypted_key : Option (List Nat)
  encrypted_key_size : Nat
  keyslot : Int
  deriving DecidableEq

inductive FindRes
  | err (e : FindErr)
  | ok
  deriving DecidableEq

/-- The `IN_SET(r, -ENOENT, -EINVAL, -EMEDIUMTYPE)` skip test: slot absent,
malformed, or of a different kind than "systemd-pkcs11". -/
def isSkipErrno (e : Int) : Bool :=
  e == -ENOENT || e == -EINVAL || e == -EMEDIUMTYPE

/-- A slot read that does not abort the scan: a record, or a skippable errno. -/
def slotOk (r : Except Int TokenJson) : Bool :=
  match r with
  | .error e => isSkipErrno e
  | .ok _ => true

/-- Whether a slot read produced a recognized record. -/
def slotIsRecord (r : Except Int TokenJson) : Bool :=
  match r with
  | .ok _ => true
  | .error _ => false

/-- The record of a slot read, if any. -/
def slotRecord (r : Except Int TokenJson) : Option TokenJson :=
  match r with
  | .ok v => some v
  | .error _ => none

/-- The recognized "systemd-pkcs11" records of the store, in ascending slot order. -/
def recognizedSlots (env : FindEnv) : List TokenJson :=
  (List.range env.maxTokens).filterMap (fun t => slotRecord (env.slot t))

/-- Field extraction and validation of one recognized record, in source order:
`pkcs11-uri` must be a present string (else EINVAL), pass `pkcs11_uri_valid`
(else EINVAL); `pkcs11-key` must be a present string (else EINVAL) and decode
as base64; the keyslot accessor must succeed. On success all three captured
values are replaced. -/
def parseRecord (env : FindEnv) (v : TokenJson) : Except FindErr FindState :=
  match json_variant_by_key v "pkcs11-uri" with
  | some (JVal.str s) =>
      if env.uriValid s then
        match json_variant_by_key v "pkcs11-key" with
        | some (JVal.str ks) =>
            match env.unbase64 ks with
            | .error e => .error (.badBase64 e)
            | .ok bytes =>
                if v.keyslot < 0 then .error (.badKeyslot v.keyslot)
                else .ok { uri := some s, key := some bytes, keyslot := v.keyslot }
        | _ => .error .missingKey
      else .error .invalidUri
  | _ => .error .missingUri

/-- One iteration of the scan loop: skip the three expected errnos, abort on any
other read failure, fail `notUnique` if a URI was already captured, otherwise
parse the record. -/
def findStep (env : FindEnv) (st : FindState) (token : Nat) : Except FindErr FindState :=
  match env.slot token with
  | .error e => if isSkipErrno e then .ok st else .error (.readFail e)
  | .ok v =>
      if st.uri.isSome then .error .notUnique
      else parseRecord env v

/-- The scan loop over a list of slot indices. -/
def findLoop (env : FindEnv) (st : FindState) : List Nat → Except FindErr FindState
  | [] => .ok st
  | t :: ts =>
      match findStep env st t with
      | .error e => .error e
      | .ok st' => findLoop env st' ts

/-- `find_pkcs11_auto_data`: scan slots `0 .. maxTokens-1`; afterwards fail
ENXIO when nothing was captured, else write the four output cells. -/
def find_pkcs11_auto_data (env : FindEnv) (out : FindOut) : FindRes × FindOut :=
  match findLoop env initFindState (List.range env.maxTokens) with
  | .error e => (.err e, out)
  | .ok st =>
      match st.uri with
      | none => (.err .nothingFound, out)
      | some u =>
          (.ok, { uri := some u,
                  encrypted_key := st.key,
                  encrypted_key_size := (st.key.getD []).length,
                  keyslot := st.keyslot })

/-- `pkcs11-uri` field absent, non-string, or failing `pkcs11_uri_valid`. -/
def uriFieldBad (env : FindEnv) (v : TokenJson) : Bool :=
  match json_variant_by_key v "pkcs11-uri" with
  | some (JVal.str s) => !(env.uriValid s)
  | _ => true

/-- Whether a `decrypt_pkcs11_key` call gets past the asserts, takes the
key-file branch, and loads the owned wrapped-key buffer successfully. -/
def fileLoaded (env : DecEnv) (args : DecArgs) : Bool :=
  !(decAsserts args) && args.key_data.isNone &&
    (match decrypt_load env args with
     | .ok _ => true
     | .error _ => false)

/-! ### Concrete instances used by witnesses and counterexamples -/

def outFindInit : FindOut :=
  { uri := none, encrypted_key := none, encrypted_key_size := 0, keyslot := -1 }

def outDecInit : DecOut := { decrypted_key := none, decrypted_key_size := 0 }

/-- A recognized record with no fields at all (malformed). -/
def emptyRecord : TokenJson := { fields := [], keyslot := 0 }

/-- The record of the spec's worked example: URI "pkcs11:model=Test", key
base64("ABCD"), keyslot 2. -/
def goodRecord : TokenJson :=
  { fields := [("pkcs11-uri", JVal.str "pkcs11:model=Test"),
               ("pkcs11-key", JVal.str "QUJDRA==")],
    keyslot := 2 }

/-- Store with two recognized records, both malformed. -/
def envTwoEmpty : FindEnv :=
  { maxTokens := 2, slot := fun _ => .ok emptyRecord,
    uriValid := fun _ => true, unbase64 := fun _ => .ok [] }

/-- Store with exactly one recognized, well-formed record (spec example). -/
def envOneGood : FindEnv :=
  { maxTokens := 4,
    slot := fun t => if t = 1 then .ok goodRecord else .error (-ENOENT),
    uriValid := fun s => s == "pkcs11:model=Test",
    unbase64 := fun s => if s == "QUJDRA==" then .ok [65, 66, 67, 68] else .error (-EINVAL) }

/-- Store with the valid record first and a malformed record in a later slot. -/
def envGoodThenEmpty : FindEnv :=
  { envOneGood with
    maxTokens := 3
    slot := fun t =>
      if t = 1 then .ok goodRecord
      else if t = 2 then .ok emptyRecord
      else .error (-ENOENT) }

/-- Store whose only recognized record has a non-string "pkcs11-uri" field. -/
def envBadUriRecord : FindEnv :=
  { maxTokens := 1,
    slot := fun _ => .ok { fields := [("pkcs11-uri", JVal.nonString)], keyslot := 0 },
    uriValid := fun _ => true, unbase64 := fun _ => .ok [] }

/-- Store where every slot read reports a skippable absence. -/
def envAllSkip : FindEnv :=
  { maxTokens := 3, slot := fun _ => .error (-ENOENT),
    uriValid := fun _ => true, unbase64 := fun _ => .ok [] }

/-- A token whose every step succeeds; its decrypt appends a trailing 0, so
plaintext and ciphertext differ. -/
def tokOk : Token :=
  { login := fun _ _ _ _ => .ok (), acquire_rng := .ok (),
    find_private_key := .ok 7, decrypt_data := fun _ c => .ok (c ++ [0]) }

def tokLoginFail : Token := { tokOk with login := fun _ _ _ _ => .error (-EAGAIN) }

def tokFindFail : Token := { tokOk with find_private_key := .error (-ENOENT) }

def tokDecryptFail : Token := { tokOk with decrypt_data := fun _ _ => .error (-EINVAL) }

def envBoth : DecEnv := { fileRead := .ok [9, 9, 9], tokens := [tokOk] }

/-- Both a literal key and a key file supplied at once. -/
def argsBoth : DecArgs :=
  { friendly_name := some "volume", pkcs11_uri := some "pkcs11:model=Test",
    key_file := some "/etc/key", key_file_size := 0, key_file_offset := 0,
    key_data := some [1, 2], until_usec := 0 }

def argsNoSource : DecArgs := { argsBoth with key_file := none, key_data := none }

def argsLiteral : DecArgs := { argsBoth with key_file := none }

def argsFileWindow : DecArgs :=
  { argsBoth with
    key_data := none
    key_file_offset := 1
    key_file_size := 2 }

def argsFileOnly : DecArgs := { argsBoth with key_data := none }

def envFile5 : DecEnv := { fileRead := .ok [10, 11, 12, 13, 14], tokens := [tokOk] }

def envReadErr : DecEnv := { fileRead := .error (-5), tokens := [tokOk] }

/-- A context holding a borrowed wrapped key. -/
def dataBorrowed : pkcs11_callback_data :=
  { friendly_name := "volume", until_usec := 0,
    encrypted_key := some (Buf.callerKey, [1, 2]), decrypted_key := none,
    decrypted_key_size := 0, free_encrypted_key := false }

/-- A context holding an owned wrapped key. -/
def dataOwned : pkcs11_callback_data :=
  { dataBorrowed with encrypted_key := some (Buf.fileKey, [3]), free_encrypted_key := true }


/-! ### Helper lemmas: the scan loop -/

theorem slotRecord_error (e : Int) : slotRecord (Except.error e) = none := rfl

theorem slotRecord_ok (v : TokenJson) : slotRecord (Except.ok v) = some v := rfl

theorem slotIsRecord_error (e : Int) : slotIsRecord (Except.error e) = false := rfl

theorem slotIsRecord_ok (v : TokenJson) : slotIsRecord (Except.ok v) = true := rfl

/-- A record that parses successfully captures a URI. -/
theorem parseRecord_ok_uri (env : FindEnv) (v : TokenJson) (st' : FindState)
    (h : parseRecord env v = .ok st') : st'.uri.isSome = true := by
  unfold parseRecord at h
  repeat' split at h
  all_goals simp_all
  subst h
  rfl

/-- Computation of `parseRecord` on a record whose three fields are present and valid. -/
theorem parseRecord_success (env : FindEnv) (v : TokenJson) (s ks : String) (bytes : List Nat)
    (hu : json_variant_by_key v "pkcs11-uri" = some (JVal.str s))
    (hv : env.uriValid s = true)
    (hk : json_variant_by_key v "pkcs11-key" = some (JVal.str ks))
    (hb : env.unbase64 ks = .ok bytes)
    (hs : 0 ≤ v.keyslot) :
    parseRecord env v = .ok { uri := some s, key := some bytes, keyslot := v.keyslot } := by
  simp [parseRecord, hu, hv, hk, hb, not_lt.mpr hs]

/-- `parseRecord` never fails with the scan-level errors. -/
theorem parseRecord_error_shape (env : FindEnv) (v : TokenJson) (e : FindErr)
    (h : parseRecord env v = .error e) :
    e ≠ .nothingFound ∧ e ≠ .notUnique ∧ ∀ e', e ≠ .readFail e' := by
  unfold parseRecord at h
  repeat' split at h
  all_goals (try (injection h with h; subst h; simp))
  all_goals simp_all

/-- A record whose URI field is absent, non-string or invalid fails parsing
with one of the two EINVAL-class URI errors. -/
theorem parseRecord_badUri (env : FindEnv) (v : TokenJson)
    (h : uriFieldBad env v = true) :
    parseRecord env v = .error .missingUri ∨ parseRecord env v = .error .invalidUri := by
  cases hcase : json_variant_by_key v "pkcs11-uri" with
  | none => left; simp [parseRecord, hcase]
  | some j =>
      cases j with
      | str s =>
          right
          have hv : env.uriValid s = false := by
            simpa [uriFieldBad, hcase] using h
          simp [parseRecord, hcase, hv]
      | nonString => left; simp [parseRecord, hcase]

/-- Emptiness of the recognized records of a slot list versus `List.any`. -/
theorem slotRecord_isEmpty_eq (env : FindEnv) (ts : List Nat) :
    (ts.filterMap (fun t => slotRecord (env.slot t))).isEmpty
      = !(ts.any (fun t => slotIsRecord (env.slot t))) := by
  induction ts with
  | nil => rfl
  | cons t ts ih =>
      rw [List.filterMap_cons, List.any_cons]
      cases hslot : env.slot t with
      | ok v => rw [slotRecord_ok, slotIsRecord_ok]; simp
      | error e => rw [slotRecord_error, slotIsRecord_error, ih]; simp

/-- Once a URI is captured, the rest of the scan fails `notUnique` exactly when
a further recognized record appears, and otherwise changes nothing. -/
theorem findLoop_post (env : FindEnv) (ts : List Nat) :
    ∀ st : FindState, (∀ t ∈ ts, slotOk (env.slot t) = true) → st.uri.isSome = true →
      findLoop env st ts =
        (if ts.any (fun t => slotIsRecord (env.slot t)) then .error .notUnique
         else .ok st) := by
  induction ts with
  | nil => intro st _ _; rfl
  | cons t ts ih =>
      intro st hok huri
      have hrest : ∀ u ∈ ts, slotOk (env.slot u) = true :=
        fun u hu => hok u (List.mem_cons_of_mem t hu)
      rw [List.any_cons]
      cases hslot : env.slot t with
      | error e =>
          have hskip : isSkipErrno e = true := by
            have h1 := hok t (List.mem_cons_self t ts)
            rw [hslot] at h1
            simpa [slotOk] using h1
          rw [slotIsRecord_error]
          have hstep : findStep env st t = .ok st := by
            simp [findStep, hslot, hskip]
          rw [show findLoop env st (t :: ts)
                = (match findStep env st t with
                   | .error e => .error e
                   | .ok st' => findLoop env st' ts) from rfl,
              hstep]
          dsimp only
          rw [ih st hrest huri]
          simp
      | ok v =>
          rw [slotIsRecord_ok]
          have hstep : findStep env st t = .error .notUnique := by
            simp [findStep, hslot, huri]
          rw [show findLoop env st (t :: ts)
                = (match findStep env st t with
                   | .error e => .error e
                   | .ok st' => findLoop env st' ts) from rfl,
              hstep]
          simp

/-- Characterization of the scan from a state with no captured URI. -/
theorem findLoop_none_char (env : FindEnv) (ts : List Nat) :
    ∀ st : FindState, (∀ t ∈ ts, slotOk (env.slot t) = true) → st.uri = none →
      findLoop env st ts =
        (match ts.filterMap (fun t => slotRecord (env.slot t)) with
         | [] => .ok st
         | v :: rest =>
             match parseRecord env v with
             | .error e => .error e
             | .ok st' => if rest.isEmpty then .ok st' else .error .notUnique) := by
  induction ts with
  | nil => intro st _ _; rfl
  | cons t ts ih =>
      intro st hok hnone
      have hrest : ∀ u ∈ ts, slotOk (env.slot u) = true :=
        fun u hu => hok u (List.mem_cons_of_mem t hu)
      rw [List.filterMap_cons]
      cases hslot : env.slot t with
      | error e =>
          have hskip : isSkipErrno e = true := by
            have h1 := hok t (List.mem_cons_self t ts)
            rw [hslot] at h1
            simpa [slotOk] using h1
          have hstep : findStep env st t = .ok st := by
            simp [findStep, hslot, hskip]
          rw [slotRecord_error]
          rw [show findLoop env st (t :: ts)
                = (match findStep env st t with
                   | .error e => .error e
                   | .ok st' => findLoop env st' ts) from rfl,
              hstep]
          exact ih st hrest hnone
      | ok v =>
          have hnotsome : st.uri.isSome = false := by simp [hnone]
          have hstep : findStep env st t = parseRecord env v := by
            simp [findStep, hslot, hnotsome]
          rw [show findLoop env st (t :: ts)
                = (match findStep env st t with
                   | .error e => .error e
                   | .ok st' => findLoop env st' ts) from rfl,
              hstep]
          rw [slotRecord_ok]
          dsimp only
          cases hp : parseRecord env v with
          | error e => rfl
          | ok st' =>
              have huri := parseRecord_ok_uri env v st' hp
              have hpost := findLoop_post env ts st' hrest huri
              dsimp only
              rw [hpost, slotRecord_isEmpty_eq env ts]
              cases hany : ts.any (fun t => slotIsRecord (env.slot t)) <;> simp [hany]

/-- Characterization of `find_pkcs11_auto_data` over a store whose slot reads
never hard-fail, in terms of its recognized records. -/
theorem find_char (env : FindEnv) (out : FindOut)
    (hnf : ∀ t, t < env.maxTokens → slotOk (env.slot t) = true) :
    find_pkcs11_auto_data env out =
      (match recognizedSlots env with
       | [] => (.err .nothingFound, out)
       | v :: rest =>
           match parseRecord env v with
           | .error e => (.err e, out)
           | .ok st' =>
               if rest.isEmpty then
                 (.ok, { uri := st'.uri, encrypted_key := st'.key,
                         encrypted_key_size := (st'.key.getD []).length,
                         keyslot := st'.keyslot })
               else (.err .notUnique, out)) := by
  have hok : ∀ t ∈ List.range env.maxTokens, slotOk (env.slot t) = true :=
    fun t ht => hnf t (List.mem_range.mp ht)
  unfold find_pkcs11_auto_data
  rw [findLoop_none_char env (List.range env.maxTokens) initFindState hok rfl]
  unfold recognizedSlots
  cases hrec : (List.range env.maxTokens).filterMap (fun t => slotRecord (env.slot t)) with
  | nil => rfl
  | cons v rest =>
      dsimp only
      cases hp : parseRecord env v with
      | error e => rfl
      | ok st' =>
          have huri := parseRecord_ok_uri env v st' hp
          obtain ⟨u, hu⟩ := Option.isSome_iff_exists.mp huri
          dsimp only
          cases hre : rest.isEmpty with
          | true => simp [hu]
          | false => simp

/-! ### Helper lemmas: the per-token attempt -/

/-- Every run of the attempt callback either fails leaving the context
untouched, or succeeds filling in exactly the decrypted key. -/
theorem pkcs11_callback_cases (tok : Token) (data : pkcs11_callback_data) :
    (pkcs11_callback tok data).2 = data ∨
    ∃ pt, pkcs11_callback tok data =
      (0, { data with decrypted_key := some pt, decrypted_key_size := pt.length }) := by
  unfold pkcs11_callback
  split
  · left; rfl
  · split
    · left; rfl
    · split
      · left; rfl
      · right; exact ⟨_, rfl⟩

/-- The token search likewise either leaves the context untouched or returns
success with exactly the decrypted key filled in. -/
theorem pkcs11_find_token_cases (tokens : List Token) (data : pkcs11_callback_data) :
    (pkcs11_find_token tokens data).2 = data ∨
    ∃ pt, pkcs11_find_token tokens data =
      (0, { data with decrypted_key := some pt, decrypted_key_size := pt.length }) := by
  cases tokens with
  | nil => left; rfl
  | cons tok rest => exact pkcs11_callback_cases tok data

/-- The three possible outcomes of wrapped-key acquisition. -/
theorem decrypt_load_cases (env : DecEnv) (args : DecArgs) :
    (∃ kd, args.key_data = some kd ∧ decrypt_load env args = .ok (Buf.callerKey, kd, false)) ∨
    (args.key_data = none ∧ ∃ e, decrypt_load env args = .error e) ∨
    (args.key_data = none ∧ ∃ bytes, decrypt_load env args = .ok (Buf.fileKey, bytes, true)) := by
  cases hkd : args.key_data with
  | some kd => left; exact ⟨kd, rfl, by simp [decrypt_load, hkd]⟩
  | none =>
      right
      cases hr : read_full_file_full env.fileRead
          (if args.key_file_offset = 0 then UINT64_MAX else args.key_file_offset)
          (if args.key_file_size = 0 then SIZE_MAX else args.key_file_size) with
      | error e => left; exact ⟨rfl, e, by simp [decrypt_load, hkd, hr]⟩
      | ok bytes => right; exact ⟨rfl, bytes, by simp [decrypt_load, hkd, hr]⟩

/-- The buffers `decrypt_finish` frees: exactly the owned wrapped-key buffer,
on every path. -/
theorem decrypt_finish_frees (tokens : List Token) (data1 : pkcs11_callback_data)
    (out : DecOut) (hdec : data1.decrypted_key = none) :
    (decrypt_finish tokens data1 out).2.2 =
      (if data1.free_encrypted_key then
         (match data1.encrypted_key with
          | some (b, _) => [b]
          | none => [])
       else []) := by
  unfold decrypt_finish
  rcases pkcs11_find_token_cases tokens data1 with h | ⟨pt, h⟩
  · by_cases hlt : (pkcs11_find_token tokens data1).1 < 0
    · simp [hlt, h, pkcs11_callback_data_release, hdec]
    · simp [hlt, h, pkcs11_callback_data_release]
  · rw [h]
    simp [pkcs11_callback_data_release]

/-- On any non-success result `decrypt_finish` leaves the output cells alone. -/
theorem decrypt_finish_out (tokens : List Token) (data1 : pkcs11_callback_data)
    (out : DecOut) :
    (decrypt_finish tokens data1 out).1 = .ok ∨
    (decrypt_finish tokens data1 out).2.1 = out := by
  unfold decrypt_finish
  by_cases hlt : (pkcs11_find_token tokens data1).1 < 0
  · right; simp [hlt]
  · left; simp [hlt]

/-- Computation of a fully successful per-token attempt. -/
theorem pkcs11_callback_success (tok : Token) (data : pkcs11_callback_data)
    (obj : Nat) (pt : List Nat)
    (hl : tok.login data.friendly_name "drive-harddisk" "pkcs11-pin" data.until_usec = .ok ())
    (hf : tok.find_private_key = .ok obj)
    (hd : tok.decrypt_data obj ((data.encrypted_key.map (fun p => p.2)).getD []) = .ok pt) :
    pkcs11_callback tok data =
      (0, { data with decrypted_key := some pt, decrypted_key_size := pt.length }) := by
  unfold pkcs11_callback
  rw [hl]
  dsimp only
  rw [hf]
  dsimp only
  rw [hd]

/-- Computation of a successful token search on the first matching token. -/
theorem decrypt_finish_success (tokens : List Token) (data1 : pkcs11_callback_data)
    (out : DecOut) (pt : List Nat)
    (h : pkcs11_find_token tokens data1 =
      (0, { data1 with decrypted_key := some pt, decrypted_key_size := pt.length })) :
    (decrypt_finish tokens data1 out).1 = .ok ∧
    (decrypt_finish tokens data1 out).2.1 =
      { decrypted_key := some pt, decrypted_key_size := pt.length } := by
  unfold decrypt_finish
  rw [h]
  constructor <;> simp

/-- On every path, `decrypt_pkcs11_key` frees exactly the owned file-read
buffer when it was loaded and nothing otherwise. -/
theorem decrypt_frees (env : DecEnv) (args : DecArgs) (out : DecOut) :
    (decrypt_pkcs11_key env args out).2.2 =
      (if fileLoaded env args then [Buf.fileKey] else []) := by
  by_cases hassert : decAsserts args = true
  · simp [decrypt_pkcs11_key, hassert, fileLoaded]
  · have hassert' : decAsserts args = false := by simpa using hassert
    rcases decrypt_load_cases env args with ⟨kd, hkd, hload⟩ | ⟨hkd, e, hload⟩ | ⟨hkd, bytes, hload⟩
    · have hfl : fileLoaded env args = false := by simp [fileLoaded, hkd]
      rw [hfl]
      simp [decrypt_pkcs11_key, hassert', hload]
      rw [decrypt_finish_frees _ _ _ rfl]
      simp
    · have hfl : fileLoaded env args = false := by simp [fileLoaded, hload]
      rw [hfl]
      simp [decrypt_pkcs11_key, hassert', hload, pkcs11_callback_data_release]
    · have hfl : fileLoaded env args = true := by
        simp [fileLoaded, hassert', hkd, hload]
      rw [hfl]
      simp [decrypt_pkcs11_key, hassert', hload]
      rw [decrypt_finish_frees _ _ _ rfl]
      simp

/-- On any non-success result the caller's output cells are unchanged. -/
theorem decrypt_out_unchanged (env : DecEnv) (args : DecArgs) (out : DecOut)
    (r : DecResult) (o : DecOut) (fr : List Buf)
    (h : decrypt_pkcs11_key env args out = (r, o, fr)) (hr : r ≠ .ok) : o = out := by
  by_cases hassert : decAsserts args = true
  · rw [decrypt_pkcs11_key, if_pos hassert] at h
    injection h with h1 h23
    injection h23 with h2 h3
    exact h2.symm
  · have hassert' : decAsserts args = false := by simpa using hassert
    rcases decrypt_load_cases env args with ⟨kd, hkd, hload⟩ | ⟨hkd, e, hload⟩ | ⟨hkd, bytes, hload⟩
    · simp only [decrypt_pkcs11_key, hassert', Bool.false_eq_true, if_false, hload] at h
      rcases decrypt_finish_out env.tokens
          { friendly_name := args.friendly_name.getD "", until_usec := args.until_usec,
            encrypted_key := some (Buf.callerKey, kd), decrypted_key := none,
            decrypted_key_size := 0, free_encrypted_key := false } out with hx | hx
      · rw [h] at hx
        exact absurd hx hr
      · rw [h] at hx
        exact hx
    · simp only [decrypt_pkcs11_key, hassert', Bool.false_eq_true, if_false, hload] at h
      exact congrArg (fun p => p.2.1) h.symm
    · simp only [decrypt_pkcs11_key, hassert', Bool.false_eq_true, if_false, hload] at h
      rcases decrypt_finish_out env.tokens
          { friendly_name := args.friendly_name.getD "", until_usec := args.until_usec,
            encrypted_key := some (Buf.fileKey, bytes), decrypted_key := none,
            decrypted_key_size := 0, free_encrypted_key := true } out with hx | hx
      · rw [h] at hx
        exact absurd hx hr
      · rw [h] at hx
        exact hx

/-- Success of `decrypt_finish` when the token search fills in the plaintext
and the wrapped key is borrowed: the plaintext and its size are returned and
nothing is freed. -/
theorem decrypt_finish_eq (tokens : List Token) (data1 : pkcs11_callback_data)
    (out : DecOut) (pt : List Nat)
    (hfree : data1.free_encrypted_key = false)
    (h : pkcs11_find_token tokens data1 =
      (0, { data1 with decrypted_key := some pt, decrypted_key_size := pt.length })) :
    decrypt_finish tokens data1 out =
      (.ok, { decrypted_key := some pt, decrypted_key_size := pt.length }, []) := by
  unfold decrypt_finish
  rw [h]
  simp [pkcs11_callback_data_release, hfree]

/-! ### Claim theorems -/

/-- C1 counterexample: a store with two recognized "systemd-pkcs11" records
whose first is malformed (no fields at all) does not fail with the "not
unique" error — the scan aborts with the first record's missing-URI error, so
the claim's "two or more recognized records fail not-unique regardless of
their content" is false as stated. -/
theorem find_auto_data_two_records_counterexample :
    (recognizedSlots envTwoEmpty).length = 2 ∧
    (find_pkcs11_auto_data envTwoEmpty outFindInit).1 = .err .missingUri ∧
    (find_pkcs11_auto_data envTwoEmpty outFindInit).1 ≠ .err .notUnique := by
  refine ⟨by decide, by decide, by decide⟩

/-- C1 (amended): over a metadata store whose slot reads never hard-fail,
`find_pkcs11_auto_data` with zero recognized "systemd-pkcs11" records fails
with the "nothing found" error; with exactly one recognized record, whose
fields are present and valid, it returns that record's URI string verbatim,
the base64-decoding of its "pkcs11-key" field as the wrapped-key bytes, and
its keyslot index; with two or more recognized records whose first parses and
validates, it fails with the "not unique" error regardless of the later
records' order or content. -/
theorem find_auto_data_record_cardinality (env : FindEnv) (out : FindOut)
    (hnf : ∀ t, t < env.maxTokens → slotOk (env.slot t) = true) :
    (recognizedSlots env = [] →
        find_pkcs11_auto_data env out = (.err .nothingFound, out)) ∧
    (∀ v s ks bytes, recognizedSlots env = [v] →
        json_variant_by_key v "pkcs11-uri" = some (.str s) →
        env.uriValid s = true →
        json_variant_by_key v "pkcs11-key" = some (.str ks) →
        env.unbase64 ks = .ok bytes →
        0 ≤ v.keyslot →
        find_pkcs11_auto_data env out =
          (.ok, { uri := some s, encrypted_key := some bytes,
                  encrypted_key_size := bytes.length, keyslot := v.keyslot })) ∧
    (∀ v rest s ks bytes, recognizedSlots env = v :: rest → rest ≠ [] →
        json_variant_by_key v "pkcs11-uri" = some (.str s) →
        env.uriValid s = true →
        json_variant_by_key v "pkcs11-key" = some (.str ks) →
        env.unbase64 ks = .ok bytes →
        0 ≤ v.keyslot →
        find_pkcs11_auto_data env out = (.err .notUnique, out)) := by
  refine ⟨?_, ?_, ?_⟩
  · intro hrec
    rw [find_char env out hnf, hrec]
  · intro v s ks bytes hrec hu hv hk hb hs
    rw [find_char env out hnf, hrec]
    dsimp only
    rw [parseRecord_success env v s ks bytes hu hv hk hb hs]
    simp
  · intro v rest s ks bytes hrec hrest hu hv hk hb hs
    rw [find_char env out hnf, hrec]
    dsimp only
    rw [parseRecord_success env v s ks bytes hu hv hk hb hs]
    cases rest with
    | nil => exact absurd rfl hrest
    | cons a as => simp

/-- Witness for `find_auto_data_record_cardinality` at the spec's worked
example: one record with URI "pkcs11:model=Test", key base64("ABCD"),
keyslot 2. -/
theorem find_auto_data_record_cardinality_witness :
    recognizedSlots envOneGood = [goodRecord] ∧
    find_pkcs11_auto_data envOneGood outFindInit =
      (.ok, { uri := some "pkcs11:model=Test", encrypted_key := some [65, 66, 67, 68],
              encrypted_key_size := 4, keyslot := 2 }) := by
  refine ⟨by decide, ?_⟩
  have h := (find_auto_data_record_cardinality envOneGood outFindInit (by decide)).2.1
    goodRecord "pkcs11:model=Test" "QUJDRA==" [65, 66, 67, 68]
    (by decide) (by decide) (by decide) (by decide) (by rfl) (by decide)
  simpa using h

/-- C5: slots are scanned in ascending index order and the first valid
recognized record is accepted; any further recognized record — of arbitrary,
even malformed, content — makes the scan fail with the "not unique" error
before that second record's fields are parsed or validated. -/
theorem find_auto_data_uniqueness_precedence (env : FindEnv) (out : FindOut)
    (hnf : ∀ t, t < env.maxTokens → slotOk (env.slot t) = true)
    (v₁ v₂ : TokenJson) (rest : List TokenJson) (s ks : String) (bytes : List Nat)
    (hrec : recognizedSlots env = v₁ :: v₂ :: rest)
    (hu : json_variant_by_key v₁ "pkcs11-uri" = some (.str s))
    (hv : env.uriValid s = true)
    (hk : json_variant_by_key v₁ "pkcs11-key" = some (.str ks))
    (hb : env.unbase64 ks = .ok bytes)
    (hs : 0 ≤ v₁.keyslot) :
    find_pkcs11_auto_data env out = (.err .notUnique, out) := by
  rw [find_char env out hnf, hrec]
  dsimp only
  rw [parseRecord_success env v₁ s ks bytes hu hv hk hb hs]
  simp

/-- Witness for `find_auto_data_uniqueness_precedence`: the valid example
record followed by a malformed record still yields "not unique". -/
theorem find_auto_data_uniqueness_precedence_witness :
    find_pkcs11_auto_data envGoodThenEmpty outFindInit = (.err .notUnique, outFindInit) :=
  find_auto_data_uniqueness_precedence envGoodThenEmpty outFindInit (by decide)
    goodRecord emptyRecord [] "pkcs11:model=Test" "QUJDRA==" [65, 66, 67, 68]
    (by decide) (by decide) (by decide) (by decide) (by rfl) (by decide)

/-- C6: over a store whose slot reads never hard-fail, a recognized record is
present exactly when the scan does not end in the generic "nothing found"
error; and when the record whose URI field is absent, non-string or invalid is
the one the scan parses (the first recognized one), the scan aborts with an
explicit EINVAL-class invalid-URI error, never with "nothing found". -/
theorem find_auto_data_invalid_uri_error (env : FindEnv) (out : FindOut)
    (hnf : ∀ t, t < env.maxTokens → slotOk (env.slot t) = true) :
    (recognizedSlots env ≠ [] →
        (find_pkcs11_auto_data env out).1 ≠ .err .nothingFound) ∧
    (∀ v rest, recognizedSlots env = v :: rest → uriFieldBad env v = true →
        ∃ e, find_pkcs11_auto_data env out = (.err e, out) ∧
          (e = .missingUri ∨ e = .invalidUri) ∧ FindErr.errno e = -EINVAL) := by
  constructor
  · intro hne
    rw [find_char env out hnf]
    cases hrec : recognizedSlots env with
    | nil => exact absurd hrec hne
    | cons v rest =>
        dsimp only
        cases hp : parseRecord env v with
        | error e =>
            have he := (parseRecord_error_shape env v e hp).1
            simp [he]
        | ok st' =>
            by_cases hre : rest.isEmpty <;> simp [hre]
  · intro v rest hrec hbad
    rw [find_char env out hnf, hrec]
    dsimp only
    rcases parseRecord_badUri env v hbad with hp | hp
    · rw [hp]
      exact ⟨.missingUri, rfl, Or.inl rfl, rfl⟩
    · rw [hp]
      exact ⟨.invalidUri, rfl, Or.inr rfl, rfl⟩

/-- Witness for `find_auto_data_invalid_uri_error`: a single record with a
non-string "pkcs11-uri" yields the missing-URI EINVAL error. -/
theorem find_auto_data_invalid_uri_error_witness :
    recognizedSlots envBadUriRecord ≠ [] ∧
    (find_pkcs11_auto_data envBadUriRecord outFindInit).1 ≠ .err .nothingFound ∧
    ∃ e, find_pkcs11_auto_data envBadUriRecord outFindInit = (.err e, outFindInit) ∧
      (e = .missingUri ∨ e = .invalidUri) ∧ FindErr.errno e = -EINVAL := by
  have h := find_auto_data_invalid_uri_error envBadUriRecord outFindInit (by decide)
  refine ⟨by decide, h.1 (by decide), ?_⟩
  exact h.2 { fields := [("pkcs11-uri", JVal.nonString)], keyslot := 0 } [] (by decide) (by decide)

/-- C9: a slot read reporting one of the three skippable conditions (absent,
malformed, wrong kind) is skipped silently and the scan continues with the
next index and never fails because of it — if every slot is skippable the scan
ends in "nothing found"; any other read failure aborts the scan with exactly
that error propagated as the errno. -/
theorem find_slot_skip_policy :
    (∀ (env : FindEnv) (st : FindState) (t : Nat) (ts : List Nat) (e : Int),
        env.slot t = .error e → isSkipErrno e = true →
        findLoop env st (t :: ts) = findLoop env st ts) ∧
    (∀ (env : FindEnv) (st : FindState) (t : Nat) (ts : List Nat) (e : Int),
        env.slot t = .error e → isSkipErrno e = false →
        findLoop env st (t :: ts) = .error (.readFail e) ∧
          FindErr.errno (.readFail e) = e) ∧
    (∀ (env : FindEnv) (out : FindOut),
        (∀ t, t < env.maxTokens → ∃ e, env.slot t = .error e ∧ isSkipErrno e = true) →
        find_pkcs11_auto_data env out = (.err .nothingFound, out)) := by
  refine ⟨?_, ?_, ?_⟩
  · intro env st t ts e hslot hskip
    have hstep : findStep env st t = .ok st := by simp [findStep, hslot, hskip]
    rw [show findLoop env st (t :: ts)
          = (match findStep env st t with
             | .error e => .error e
             | .ok st' => findLoop env st' ts) from rfl,
        hstep]
  · intro env st t ts e hslot hskip
    have hstep : findStep env st t = .error (.readFail e) := by
      simp [findStep, hslot, hskip]
    refine ⟨?_, rfl⟩
    rw [show findLoop env st (t :: ts)
          = (match findStep env st t with
             | .error e => .error e
             | .ok st' => findLoop env st' ts) from rfl,
        hstep]
  · intro env out hall
    have hnf : ∀ t, t < env.maxTokens → slotOk (env.slot t) = true := by
      intro t ht
      obtain ⟨e, hs, hsk⟩ := hall t ht
      rw [hs]
      simpa [slotOk] using hsk
    have hrec : recognizedSlots env = [] := by
      unfold recognizedSlots
      rw [List.filterMap_eq_nil_iff]
      intro t ht
      obtain ⟨e, hs, _⟩ := hall t (List.mem_range.mp ht)
      rw [hs]
      rfl
    rw [find_char env out hnf, hrec]

/-- Witness for `find_slot_skip_policy`: a store whose three slots all report
absence ends in "nothing found". -/
theorem find_slot_skip_policy_witness :
    find_pkcs11_auto_data envAllSkip outFindInit = (.err .nothingFound, outFindInit) :=
  find_slot_skip_policy.2.2 envAllSkip outFindInit
    (fun t ht => ⟨-ENOENT, rfl, by decide⟩)

/-- C2 counterexample: with both a literal key ([1, 2]) and a key file
(contents [9, 9, 9]) supplied at once, the call is not rejected as a contract
violation: it succeeds, silently preferring the literal bytes — the token's
decrypt (which appends a 0) ran on [1, 2], not on the file contents. -/
theorem decrypt_both_sources_counterexample :
    decrypt_pkcs11_key envBoth argsBoth outDecInit =
      (.ok, { decrypted_key := some [1, 2, 0], decrypted_key_size := 3 }, []) ∧
    (decrypt_pkcs11_key envBoth argsBoth outDecInit).1 ≠ .assertFail := by
  exact ⟨by decide, by decide⟩

/-- C2 (amended): the assertion rejects only the case where neither key source
is supplied; when both are supplied the `key_file || key_data` assertion
passes and the literal `key_data` buffer is silently preferred — the call
behaves exactly as if no key file had been given. -/
theorem decrypt_key_source_contract :
    (∀ (env : DecEnv) (args : DecArgs) (out : DecOut),
        args.key_file = none → args.key_data = none →
        decrypt_pkcs11_key env args out = (.assertFail, out, [])) ∧
    (∀ (env : DecEnv) (args : DecArgs) (out : DecOut) (kd : List Nat),
        args.key_data = some kd →
        decrypt_pkcs11_key env args out =
          decrypt_pkcs11_key env { args with key_file := none } out) := by
  constructor
  · intro env args out hkf hkd
    have h : decAsserts args = true := by simp [decAsserts, hkf, hkd]
    simp [decrypt_pkcs11_key, h]
  · intro env args out kd hkd
    have h1 : decAsserts { args with key_file := none } = decAsserts args := by
      simp [decAsserts, hkd]
    rw [decrypt_pkcs11_key, decrypt_pkcs11_key, h1]
    exact rfl

/-- Witness for `decrypt_key_source_contract`: with no key source the call
asserts out; with both sources it equals the literal-key-only run. -/
theorem decrypt_key_source_contract_witness :
    decrypt_pkcs11_key envBoth argsNoSource outDecInit = (.assertFail, outDecInit, []) ∧
    decrypt_pkcs11_key envBoth argsBoth outDecInit =
      decrypt_pkcs11_key envBoth { argsBoth with key_file := none } outDecInit :=
  ⟨decrypt_key_source_contract.1 envBoth argsNoSource outDecInit rfl rfl,
   decrypt_key_source_contract.2 envBoth argsBoth outDecInit [1, 2] rfl⟩

/-- C3: with a literal wrapped key and a matching present token whose login,
private-key lookup and unwrap succeed, `decrypt_pkcs11_key` returns exactly
the plaintext bytes and length the token's decrypt produced for those
ciphertext bytes; and the caller-owned `key_data` buffer is freed on no exit
path of the operation. -/
theorem decrypt_literal_key_exact :
    (∀ (env : DecEnv) (args : DecArgs) (out : DecOut) (fn u : String) (kd : List Nat)
        (tok : Token) (rest : List Token) (obj : Nat) (pt : List Nat),
        args.friendly_name = some fn → args.pkcs11_uri = some u →
        args.key_data = some kd →
        env.tokens = tok :: rest →
        tok.login fn "drive-harddisk" "pkcs11-pin" args.until_usec = .ok () →
        tok.find_private_key = .ok obj →
        tok.decrypt_data obj kd = .ok pt →
        decrypt_pkcs11_key env args out =
          (.ok, { decrypted_key := some pt, decrypted_key_size := pt.length }, [])) ∧
    (∀ (env : DecEnv) (args : DecArgs) (out : DecOut),
        Buf.callerKey ∉ (decrypt_pkcs11_key env args out).2.2) := by
  constructor
  · intro env args out fn u kd tok rest obj pt hfn hu hkd htok hlogin hfind hdec
    have hassert : decAsserts args = false := by simp [decAsserts, hfn, hu, hkd]
    have hload : decrypt_load env args = .ok (Buf.callerKey, kd, false) := by
      simp [decrypt_load, hkd]
    simp only [decrypt_pkcs11_key, hassert, Bool.false_eq_true, if_false, hload, hfn]
    exact decrypt_finish_eq env.tokens _ out pt rfl
      (by
        rw [htok]
        exact pkcs11_callback_success tok _ obj pt (by simpa using hlogin) hfind
          (by simpa using hdec))
  · intro env args out
    rw [decrypt_frees env args out]
    by_cases h : fileLoaded env args = true <;> simp [h]

/-- Witness for `decrypt_literal_key_exact`: the literal key [1, 2] against
the all-succeeding token yields plaintext [1, 2, 0] and frees nothing. -/
theorem decrypt_literal_key_exact_witness :
    decrypt_pkcs11_key envBoth argsLiteral outDecInit =
      (.ok, { decrypted_key := some [1, 2, 0], decrypted_key_size := 3 }, []) ∧
    Buf.callerKey ∉ (decrypt_pkcs11_key envBoth argsLiteral outDecInit).2.2 := by
  constructor
  · have h := decrypt_literal_key_exact.1 envBoth argsLiteral outDecInit "volume"
      "pkcs11:model=Test" [1, 2] tokOk [] 7 [1, 2, 0] rfl rfl rfl rfl rfl rfl rfl
    simpa using h
  · exact decrypt_literal_key_exact.2 envBoth argsLiteral outDecInit

/-- C4: for key-file inputs, offset 0 and size 0 mean "read the whole file";
offset N and size M (M positive, neither equal to its reserved sentinel) read
exactly the file's bytes with indices in [N, N+M); and an I/O failure of the
read is propagated unchanged as the operation's result. -/
theorem decrypt_key_file_window :
    (∀ (env : DecEnv) (args : DecArgs) (contents : List Nat),
        args.key_data = none → env.fileRead = .ok contents →
        args.key_file_offset = 0 → args.key_file_size = 0 →
        decrypt_load env args = .ok (Buf.fileKey, contents, true)) ∧
    (∀ (env : DecEnv) (args : DecArgs) (contents : List Nat),
        args.key_data = none → env.fileRead = .ok contents →
        0 < args.key_file_size → args.key_file_size ≠ SIZE_MAX →
        args.key_file_offset ≠ UINT64_MAX →
        decrypt_load env args =
          .ok (Buf.fileKey,
               (contents.drop args.key_file_offset).take args.key_file_size, true)) ∧
    (∀ (env : DecEnv) (args : DecArgs) (out : DecOut) (e : Int),
        decAsserts args = false → args.key_data = none → env.fileRead = .error e →
        decrypt_pkcs11_key env args out = (.err e, out, [])) := by
  refine ⟨?_, ?_, ?_⟩
  · intro env args contents hkd hfile ho hs
    simp [decrypt_load, hkd, read_full_file_full, hfile, ho, hs]
  · intro env args contents hkd hfile hs hsmax homax
    have hs0 : args.key_file_size ≠ 0 := by omega
    by_cases ho : args.key_file_offset = 0
    · simp [decrypt_load, hkd, read_full_file_full, hfile, ho, hs0, hsmax]
    · simp [decrypt_load, hkd, read_full_file_full, hfile, ho, hs0, hsmax, homax]
  · intro env args out e ha hkd hfile
    have hload : decrypt_load env args = .error e := by
      simp [decrypt_load, hkd, read_full_file_full, hfile]
    simp [decrypt_pkcs11_key, ha, hload, pkcs11_callback_data_release]

/-- Witness for `decrypt_key_file_window`: offset 1, size 2 over a five-byte
file reads exactly bytes [1, 3) of it; and a failing read (errno -5) is
returned unchanged by the full operation. -/
theorem decrypt_key_file_window_witness :
    decrypt_load envFile5 argsFileWindow = .ok (Buf.fileKey, [11, 12], true) ∧
    decrypt_pkcs11_key envReadErr argsFileOnly outDecInit = (.err (-5), outDecInit, []) := by
  constructor
  · have h := decrypt_key_file_window.2.1 envFile5 argsFileWindow [10, 11, 12, 13, 14]
      rfl rfl (by decide) (by decide) (by decide)
    simpa using h
  · exact decrypt_key_file_window.2.2 envReadErr argsFileOnly outDecInit (-5)
      (by decide) rfl rfl

/-- C7: in the per-token attempt the steps run in the fixed order login (with
the fixed "drive-harddisk" hint and "pkcs11-pin" credential id), entropy
mixing, private-key lookup, unwrap; a failure of login, lookup or unwrap
aborts the attempt with that failure propagated and the context untouched,
while the entropy-mixing outcome has no observable effect on the attempt's
result. -/
theorem callback_step_order :
    (∀ (tok : Token) (data : pkcs11_callback_data) (e : Int),
        tok.login data.friendly_name "drive-harddisk" "pkcs11-pin" data.until_usec = .error e →
        pkcs11_callback tok data = (e, data)) ∧
    (∀ (tok : Token) (data : pkcs11_callback_data) (e : Int),
        tok.login data.friendly_name "drive-harddisk" "pkcs11-pin" data.until_usec = .ok () →
        tok.find_private_key = .error e →
        pkcs11_callback tok data = (e, data)) ∧
    (∀ (tok : Token) (data : pkcs11_callback_data) (obj : Nat) (e : Int),
        tok.login data.friendly_name "drive-harddisk" "pkcs11-pin" data.until_usec = .ok () →
        tok.find_private_key = .ok obj →
        tok.decrypt_data obj ((data.encrypted_key.map (fun p => p.2)).getD []) = .error e →
        pkcs11_callback tok data = (e, data)) ∧
    (∀ (tok : Token) (data : pkcs11_callback_data) (rng : Except Int Unit),
        pkcs11_callback { tok with acquire_rng := rng } data = pkcs11_callback tok data) ∧
    (∀ (tok : Token) (data : pkcs11_callback_data) (obj : Nat) (pt : List Nat),
        tok.login data.friendly_name "drive-harddisk" "pkcs11-pin" data.until_usec = .ok () →
        tok.find_private_key = .ok obj →
        tok.decrypt_data obj ((data.encrypted_key.map (fun p => p.2)).getD []) = .ok pt →
        pkcs11_callback tok data =
          (0, { data with decrypted_key := some pt, decrypted_key_size := pt.length })) := by
  refine ⟨?_, ?_, ?_, ?_, ?_⟩
  · intro tok data e hl
    unfold pkcs11_callback
    rw [hl]
  · intro tok data e hl hf
    unfold pkcs11_callback
    rw [hl]
    dsimp only
    rw [hf]
  · intro tok data obj e hl hf hd
    unfold pkcs11_callback
    rw [hl]
    dsimp only
    rw [hf]
    dsimp only
    rw [hd]
  · intro tok data rng
    rfl
  · exact fun tok data obj pt hl hf hd => pkcs11_callback_success tok data obj pt hl hf hd

/-- Witness for `callback_step_order`: a failing login propagates its error
with the context untouched; the all-succeeding token fills in the plaintext. -/
theorem callback_step_order_witness :
    pkcs11_callback tokLoginFail dataBorrowed = (-EAGAIN, dataBorrowed) ∧
    pkcs11_callback tokOk dataBorrowed =
      (0, { dataBorrowed with decrypted_key := some [1, 2, 0], decrypted_key_size := 3 }) := by
  constructor
  · exact callback_step_order.1 tokLoginFail dataBorrowed (-EAGAIN) rfl
  · have h := callback_step_order.2.2.2.2 tokOk dataBorrowed 7 [1, 2, 0] rfl rfl rfl
    simpa using h

/-- C8: the scoped release consults the ownership flag — a borrowed wrapped
key (flag false) is never freed by it, an owned one (flag true) is freed
exactly once; across every exit path of `decrypt_pkcs11_key` the owned
file-read buffer is freed exactly once when it was loaded and never otherwise,
the borrowed literal buffer is never freed, and on success the plaintext
buffer has been nulled out of the context before the release runs, so it is
transferred to the caller and not freed. -/
theorem wrapped_key_ownership :
    (∀ (data : pkcs11_callback_data) (b : Buf) (bytes : List Nat),
        data.encrypted_key = some (b, bytes) → data.free_encrypted_key = false →
        b ≠ Buf.plaintext →
        b ∉ pkcs11_callback_data_release data) ∧
    (∀ (data : pkcs11_callback_data) (b : Buf) (bytes : List Nat),
        data.encrypted_key = some (b, bytes) → data.free_encrypted_key = true →
        b ≠ Buf.plaintext →
        (pkcs11_callback_data_release data).count b = 1) ∧
    (∀ (env : DecEnv) (args : DecArgs) (out : DecOut),
        ((decrypt_pkcs11_key env args out).2.2).count Buf.fileKey =
          (if fileLoaded env args then 1 else 0)) ∧
    (∀ (env : DecEnv) (args : DecArgs) (out : DecOut),
        args.key_data.isSome = true →
        Buf.callerKey ∉ (decrypt_pkcs11_key env args out).2.2) ∧
    (∀ (env : DecEnv) (args : DecArgs) (out : DecOut),
        (decrypt_pkcs11_key env args out).1 = .ok →
        Buf.plaintext ∉ (decrypt_pkcs11_key env args out).2.2) := by
  refine ⟨?_, ?_, ?_, ?_, ?_⟩
  · intro data b bytes henc hfree hbp
    cases hd : data.decrypted_key <;>
      simp [pkcs11_callback_data_release, henc, hfree, hbp, hd]
  · intro data b bytes henc hfree hbp
    cases hd : data.decrypted_key <;>
      simp [pkcs11_callback_data_release, henc, hfree, hbp, hd, List.count_cons]
  · intro env args out
    rw [decrypt_frees env args out]
    by_cases h : fileLoaded env args = true <;> simp [h]
  · intro env args out _
    rw [decrypt_frees env args out]
    by_cases h : fileLoaded env args = true <;> simp [h]
  · intro env args out _
    rw [decrypt_frees env args out]
    by_cases h : fileLoaded env args = true <;> simp [h]

/-- Witness for `wrapped_key_ownership`: the release never frees the borrowed
context's caller buffer, and frees the owned context's file buffer once. -/
theorem wrapped_key_ownership_witness :
    Buf.callerKey ∉ pkcs11_callback_data_release dataBorrowed ∧
    (pkcs11_callback_data_release dataOwned).count Buf.fileKey = 1 :=
  ⟨wrapped_key_ownership.1 dataBorrowed Buf.callerKey [1, 2] rfl rfl (by decide),
   wrapped_key_ownership.2.1 dataOwned Buf.fileKey [3] rfl rfl (by decide)⟩

/-- C10: on every error return of `decrypt_pkcs11_key` and of
`find_pkcs11_auto_data`, the caller's output cells are left exactly as they
were — they are written only on success. -/
theorem outputs_unwritten_on_error :
    (∀ (env : DecEnv) (args : DecArgs) (out : DecOut) (r : DecResult) (o : DecOut)
        (fr : List Buf),
        decrypt_pkcs11_key env args out = (r, o, fr) → r ≠ .ok → o = out) ∧
    (∀ (env : FindEnv) (out : FindOut) (r : FindRes) (o : FindOut),
        find_pkcs11_auto_data env out = (r, o) → r ≠ .ok → o = out) := by
  constructor
  · exact fun env args out r o fr h hr => decrypt_out_unchanged env args out r o fr h hr
  · intro env out r o h hr
    unfold find_pkcs11_auto_data at h
    cases hl : findLoop env initFindState (List.range env.maxTokens) with
    | error e =>
        rw [hl] at h
        injection h with h1 h2
        exact h2.symm
    | ok st =>
        rw [hl] at h
        dsimp only at h
        cases hu : st.uri with
        | none =>
            rw [hu] at h
            injection h with h1 h2
            exact h2.symm
        | some u =>
            rw [hu] at h
            injection h with h1 h2
            exact absurd h1.symm hr

/-- Witness for `outputs_unwritten_on_error`: a failing key-file read leaves
the output cells untouched. -/
theorem outputs_unwritten_on_error_witness :
    decrypt_pkcs11_key envReadErr argsFileOnly outDecInit = (.err (-5), outDecInit, []) ∧
    outDecInit = outDecInit :=
  ⟨by decide,
   outputs_unwritten_on_error.1 envReadErr argsFileOnly outDecInit
     (.err (-5)) outDecInit [] (by decide) (by decide)⟩
